import Mathlib

/-!
Verification of the seat-booking concurrency controller of the bikepool
application (src/app/routes/rides.py, src/app/utils.py, src/app/models.py).

The embedding models:
  * the scheduling/time policy `get_ride_datetime` (src/app/utils.py, lines
    21-28), with dates as day indices and times as minutes past midnight, so
    a datetime instant is `day * 1440 + minutes`;
  * the optimistic-concurrency booking loop `book_ride` (src/app/routes/
    rides.py, lines 20-124).  One attempt reads a snapshot of the database
    (`readSt`), checks the preconditions against it, and then issues the
    conditional write against the database state at write time (`writeSt`):
    the guard is `version == old_version AND seats_available > 0` and the
    written values are `seats_available - 1` (from the snapshot) and
    `old_version + 1`, exactly as in lines 63-72.  Interference is modelled
    by letting the per-attempt pair of states come from an arbitrary
    environment `env`; the sequential (no-interference) case is `env`
    constant with `readSt = writeSt`.  The booking insert is in the same
    transaction as the conditional write, so an IntegrityError (duplicate
    booking) rolls both back (lines 83-98): a committed outcome is reported
    as `some` final state, every non-committed outcome as `none`;
  * the cancellation path `cancel_booking` (src/app/routes/rides.py, lines
    126-159);
  * a history machine (`rstep`, `runR`) for concurrent reserve attempts on
    one ride, in which each attempt's snapshot is some earlier state of the
    ride's history and the conditional write is atomic, with the insert's
    commit success abstracted as a boolean.  Only `seats_available`
    (`seats`) and `version` matter there.

Sleeps are recorded in milliseconds: `time.sleep(0.08 * attempt)` is
`80 * attempt` ms.  Flash categories ('error' / 'info' / 'success') are kept
so that "success, not an error" is expressible.
-/

/-- Minutes in one day: the overnight push `timedelta(days=1)`. -/
def minutesPerDay : Nat := 1440

/-- Shallow embedding of `get_ride_datetime` (src/app/utils.py lines 21-28):
`datetime.combine` is `day * 1440 + minutes`; if an end time is given and the
combined end instant is not after the start instant, one day is added. -/
def get_ride_datetime (ride_date ride_time : Nat) (ride_end_time : Option Nat) :
    Nat × Nat :=
  let ride_dt_start := ride_date * minutesPerDay + ride_time
  let end_time := ride_end_time.getD ride_time
  let ride_dt_end := ride_date * minutesPerDay + end_time
  if ride_end_time.isSome ∧ ride_dt_end ≤ ride_dt_start then
    (ride_dt_start, ride_dt_end + minutesPerDay)
  else
    (ride_dt_start, ride_dt_end)

/-- A ride record (model `BikeRide`, src/app/models.py lines 38-54). -/
structure Ride where
  rider_id : Nat
  seats_available : Int
  version : Nat
  rider_gender_preference : String
  ride_date : Nat
  ride_time : Nat
  ride_end_time : Option Nat
deriving DecidableEq

/-- The computed end instant of a ride's active window. -/
def rideEndInstant (r : Ride) : Nat :=
  (get_ride_datetime r.ride_date r.ride_time r.ride_end_time).2

/-- The check `ride_dt_end < datetime.now()` used by booking, cancellation and
deletion (src/app/routes/rides.py lines 50, 139, 180). -/
def isCompleted (r : Ride) (now : Nat) : Bool :=
  decide (rideEndInstant r < now)

/-- Database state relevant to one ride: the ride row (none once deleted) and
the passenger ids holding a `Booking` row for this ride (src/app/models.py
lines 56-62; the unique constraint makes duplicates impossible in reachable
states, but the model does not assume it). -/
structure St where
  ride : Option Ride
  bookings : List Nat
deriving DecidableEq

/-- Outcomes of `book_ride`, one per flash message (src/app/routes/rides.py
lines 41, 46, 51, 56, 60, 91, 95, 113, 123).  `HighContention` covers the
retry-exhaustion exit. -/
inductive BookResult where
  | NotFound
  | PolicyRejected
  | RideCompleted
  | AlreadyBooked
  | RideFull
  | Booked
  | HighContention
deriving DecidableEq

/-- The flash category attached to each outcome in the source. -/
def flashCategory : BookResult → String
  | .NotFound => "error"
  | .PolicyRejected => "error"
  | .RideCompleted => "error"
  | .AlreadyBooked => "info"
  | .RideFull => "error"
  | .Booked => "success"
  | .HighContention => "error"

/-- An outcome is an error exactly when its flash category is 'error'. -/
def isError (r : BookResult) : Bool :=
  flashCategory r == "error"

/-- Result of one attempt of the booking loop: either a returned response
(`committed = some s` exactly when the decrement-plus-insert transaction
committed, leaving the database at `s`), or a retry after sleeping. -/
inductive AttemptOut where
  | done (result : BookResult) (committed : Option St)
  | retry (sleepMs : Nat)
deriving DecidableEq

/-- One attempt of `book_ride` (src/app/routes/rides.py lines 37-98).
`readSt` is the snapshot the fresh reads see; `writeSt` is the database state
the conditional write and the booking insert run against. -/
def bookAttempt (now passenger_id : Nat) (passenger_gender : String)
    (attempt : Nat) (readSt writeSt : St) : AttemptOut :=
  match readSt.ride with
  | none => .done .NotFound none
  | some ride =>
    if ride.rider_gender_preference ≠ "Any" ∧
        passenger_gender ≠ ride.rider_gender_preference then
      .done .PolicyRejected none
    else if isCompleted ride now then
      .done .RideCompleted none
    else if passenger_id ∈ readSt.bookings then
      .done .AlreadyBooked none
    else if ride.seats_available ≤ 0 then
      .done .RideFull none
    else
      match writeSt.ride with
      | none => .retry (80 * attempt)
      | some w =>
        if w.version = ride.version ∧ 0 < w.seats_available then
          if passenger_id ∈ writeSt.bookings then
            .done .AlreadyBooked none
          else
            .done .Booked (some ⟨some { w with
                seats_available := ride.seats_available - 1,
                version := ride.version + 1 },
              passenger_id :: writeSt.bookings⟩)
        else
          .retry (80 * attempt)

/-- `max_retries = 4` (src/app/routes/rides.py line 32). -/
def max_retries : Nat := 4

/-- What a full run of the booking loop yields: the response, the committed
database state (none if no write of this caller committed), the sleeps
performed (in ms, in order), and the number of attempts used. -/
structure BookOutcome where
  result : BookResult
  committed : Option St
  sleeps : List Nat
  attempts : Nat
deriving DecidableEq

/-- The retry loop of `book_ride` (src/app/routes/rides.py lines 35-124):
`fuel` is the remaining number of attempts, `attempt` the count already used;
exhaustion returns the high-contention response. -/
def bookLoop (env : Nat → St × St) (now passenger_id : Nat)
    (passenger_gender : String) : Nat → Nat → BookOutcome
  | 0, attempt => ⟨.HighContention, none, [], attempt⟩
  | fuel + 1, attempt =>
    let a := attempt + 1
    match bookAttempt now passenger_id passenger_gender a (env a).1 (env a).2 with
    | .done r c => ⟨r, c, [], a⟩
    | .retry ms =>
      let rest := bookLoop env now passenger_id passenger_gender fuel a
      ⟨rest.result, rest.committed, ms :: rest.sleeps, rest.attempts⟩

/-- `book_ride` (src/app/routes/rides.py lines 20-124), with the interference
environment `env` supplying attempt `a`'s read snapshot and write-time state. -/
def book_ride (env : Nat → St × St) (now passenger_id : Nat)
    (passenger_gender : String) : BookOutcome :=
  bookLoop env now passenger_id passenger_gender max_retries 0

/-- A sequential (interference-free) call of `book_ride` on state `s`: the
snapshot and the write-time state agree, and a non-committing return leaves
the database at `s`. -/
def bookOnce (now passenger_id : Nat) (passenger_gender : String) (s : St) :
    BookResult × St :=
  let out := book_ride (fun _ => (s, s)) now passenger_id passenger_gender
  (out.result, out.committed.getD s)

/-- Outcomes of `cancel_booking`, one per exit (src/app/routes/rides.py lines
134, 140, 151, 157). -/
inductive CancelResult where
  | NotFound
  | RideCompleted
  | Cancelled
  | BookingNotFound
deriving DecidableEq

/-- `cancel_booking` (src/app/routes/rides.py lines 126-159): 404 when the
ride is missing, rejection when the ride is completed, otherwise delete the
booking, add one seat back and bump the version. -/
def cancel_booking (now passenger_id : Nat) (s : St) : CancelResult × St :=
  match s.ride with
  | none => (.NotFound, s)
  | some ride =>
    if isCompleted ride now then
      (.RideCompleted, s)
    else if passenger_id ∈ s.bookings then
      (.Cancelled, ⟨some { ride with
          seats_available := ride.seats_available + 1,
          version := ride.version + 1 },
        s.bookings.erase passenger_id⟩)
    else
      (.BookingNotFound, s)

/-! ### History machine for concurrent reserve attempts (claim C1)

Each concurrent reserve attempt reads its snapshot at some earlier moment of
the ride's history and then runs the conditional write atomically against the
current state.  `insertOk` abstracts whether the booking insert (in the same
transaction) commits; when it does not, the whole transaction is rolled back,
as in src/app/routes/rides.py lines 85-98. -/

/-- The ride fields the conditional write touches. -/
structure RState where
  seats : Int
  version : Nat
deriving DecidableEq

/-- The snapshot an attempt observed: the state after `i` events of the
history, the current state for a fresh read. -/
def stateAt (hist : List RState) (cur : RState) (i : Nat) : RState :=
  hist.getD i cur

/-- A concurrent reserve attempt: which past moment its fresh read happened
at, and whether its booking insert commits. -/
inductive REv where
  | reserve (readIdx : Nat) (insertOk : Bool)
deriving DecidableEq

/-- Atomic effect of one reserve attempt (src/app/routes/rides.py lines
63-78): the guard is `version == old_version AND seats_available > 0`; on
success the write stores the snapshot's `seats_available - 1` and
`old_version + 1`; a guard mismatch or a rolled-back insert leaves the state
unchanged.  The boolean flags a committed (successful) reservation. -/
def rstep (hist : List RState) (cur : RState) : REv → RState × Bool
  | .reserve idx ok =>
    let snap := stateAt hist cur idx
    if cur.version = snap.version ∧ 0 < cur.seats ∧ ok = true then
      (⟨snap.seats - 1, snap.version + 1⟩, true)
    else
      (cur, false)

/-- Run a sequence of concurrent reserve attempts, accumulating the history
of states and counting the committed reservations. -/
def runR : List REv → List RState → RState → RState × Nat
  | [], _, cur => (cur, 0)
  | e :: es, hist, cur =>
    let st := rstep hist cur e
    let rest := runR es (hist ++ [cur]) st.1
    (rest.1, (if st.2 then 1 else 0) + rest.2)

/-! ### Concrete sample data, used to instantiate the theorems below. -/

/-- A ride with 3 seats, version 1, no gender filter, on day 10 at 10:00. -/
def sampleRide : Ride := ⟨1, 3, 1, "Any", 10, 600, none⟩

/-- The sample ride with no bookings. -/
def sampleSt : St := ⟨some sampleRide, []⟩

/-- The sample ride with passenger 7 already booked. -/
def sampleBookedSt : St := ⟨some sampleRide, [7]⟩

/-- The sample ride with zero seats left. -/
def sampleFullSt : St := ⟨some { sampleRide with seats_available := 0 }, []⟩

/-- An interference-free environment over the sample state. -/
def sampleEnv : Nat → St × St := fun _ => (sampleSt, sampleSt)

/-- An environment whose write-time state always has a bumped version, so
every conditional write misses its guard. -/
def contendedEnv : Nat → St × St :=
  fun _ => (sampleSt, ⟨some { sampleRide with version := 2 }, []⟩)

/-- An environment where a racing duplicate booking by passenger 7 appears
between the snapshot read and the insert, without a version change. -/
def duplicateRaceEnv : Nat → St × St :=
  fun _ => (sampleSt, ⟨some sampleRide, [7]⟩)

/-- A two-attempt trace for the history machine: both attempts snapshot the
initial state; the second then misses the version guard. -/
def sampleTrace : List REv := [.reserve 0 true, .reserve 0 true]

/-! ### Theorems -/

/-- C3: the active-window computation returns `endInstant = startInstant` when
the end time is absent; when the end time is present and the same-date end
instant is not strictly after the start instant, the end instant is pushed
forward by exactly one day; and a ride starting 23:00 with end 01:00 is still
active at 23:30 and completed at 02:00 on the next date. -/
theorem active_window_spec :
    (∀ d t, (get_ride_datetime d t none).2 = (get_ride_datetime d t none).1)
  ∧ (∀ d t te, d * minutesPerDay + te ≤ d * minutesPerDay + t →
      (get_ride_datetime d t (some te)).2 = (d * minutesPerDay + te) + minutesPerDay)
  ∧ (∀ d, isCompleted ⟨1, 1, 1, "Any", d, 1380, some 60⟩ (d * minutesPerDay + 1410) = false
      ∧ isCompleted ⟨1, 1, 1, "Any", d, 1380, some 60⟩ ((d + 1) * minutesPerDay + 120) = true) := by
  refine ⟨?_, ?_, ?_⟩
  · intro d t
    simp [get_ride_datetime]
  · intro d t te h
    simp [get_ride_datetime, h]
  · intro d
    constructor
    · simp [isCompleted, rideEndInstant, get_ride_datetime, minutesPerDay]
    · simp [isCompleted, rideEndInstant, get_ride_datetime, minutesPerDay]
      omega

/-- Witness for C3 at a concrete overnight ride: start 23:00, end 01:00 on
day 0, so the end instant is minute 60 plus one day. -/
theorem active_window_spec_witness :
    (get_ride_datetime 0 1380 (some 60)).2 = (0 * minutesPerDay + 60) + minutesPerDay :=
  active_window_spec.2.1 0 1380 60 (by decide)

/-- C8: cancelling on a completed ride is rejected with `RideCompleted` and
leaves seats, version and the booking records unchanged; cancellation
succeeds exactly when the ride exists, is still active and a booking exists
for the pair, and then it deletes the booking, adds one seat back and bumps
the version by one. -/
theorem cancel_completed_rejected (now p : Nat) (s : St) :
    (∀ r, s.ride = some r → isCompleted r now = true →
      cancel_booking now p s = (.RideCompleted, s))
  ∧ (∀ res s', cancel_booking now p s = (res, s') →
      ((res = .Cancelled ↔
          ∃ r, s.ride = some r ∧ isCompleted r now = false ∧ p ∈ s.bookings)
    ∧ (res = .Cancelled → ∃ r, s.ride = some r ∧
        s' = ⟨some { r with seats_available := r.seats_available + 1,
                            version := r.version + 1 },
              s.bookings.erase p⟩))) := by
  constructor
  · intro r hr hc
    simp [cancel_booking, hr, hc]
  · intro res s' h
    cases hr : s.ride with
    | none =>
      simp [cancel_booking, hr] at h
      obtain ⟨rfl, rfl⟩ := h
      simp [hr]
    | some r =>
      cases hc : isCompleted r now with
      | true =>
        simp [cancel_booking, hr, hc] at h
        obtain ⟨rfl, rfl⟩ := h
        simp [hr, hc]
      | false =>
        by_cases hb : p ∈ s.bookings
        · simp [cancel_booking, hr, hc, hb] at h
          obtain ⟨rfl, rfl⟩ := h
          exact ⟨⟨fun _ => ⟨r, rfl, hc, hb⟩, fun _ => rfl⟩, fun _ => ⟨r, rfl, rfl⟩⟩
        · simp [cancel_booking, hr, hc, hb] at h
          obtain ⟨rfl, rfl⟩ := h
          simp [hr, hc, hb]


/-- Witness for C8: cancelling the sample booked ride after its end (minute
20000 is past the end instant 15000) is rejected and changes nothing. -/
theorem cancel_completed_rejected_witness :
    cancel_booking 20000 7 sampleBookedSt = (.RideCompleted, sampleBookedSt) :=
  (cancel_completed_rejected 20000 7 sampleBookedSt).1 sampleRide rfl (by decide)

/-- C10: cancelling on an existing, still-active ride without a booking for
the pair returns the booking-not-found error and leaves the ride row (seats
and version) and the booking records unchanged. -/
theorem cancel_no_booking (now p : Nat) (s : St) (r : Ride)
    (hr : s.ride = some r) (hact : isCompleted r now = false)
    (hnb : p ∉ s.bookings) :
    cancel_booking now p s = (.BookingNotFound, s) := by
  simp [cancel_booking, hr, hact, hnb]

/-- Witness for C10: passenger 9 has no booking on the active sample ride. -/
theorem cancel_no_booking_witness :
    cancel_booking 0 9 sampleBookedSt = (.BookingNotFound, sampleBookedSt) :=
  cancel_no_booking 0 9 sampleBookedSt sampleRide rfl (by decide) (by decide)

/-- C2: each applied seat mutation bumps the version by exactly 1 — a
committed reservation writes the snapshot's `seats_available - 1` together
with the write-time version plus 1, and a successful cancellation adds one
seat and bumps the version by 1 — while every other outcome of these two
operations leaves the database unchanged (a reservation changes it only via
a committed conditional write, reported as `committed = some`). -/
theorem version_increment_per_mutation (now p a : Nat) (g : String)
    (rs ws s : St) :
    (∀ res s', bookAttempt now p g a rs ws = .done res (some s') →
      res = .Booked ∧ ∃ r w, rs.ride = some r ∧ ws.ride = some w ∧
        s' = ⟨some { w with seats_available := r.seats_available - 1,
                            version := w.version + 1 },
              p :: ws.bookings⟩)
  ∧ (∀ res s', cancel_booking now p s = (res, s') →
      (res = .Cancelled → ∃ r, s.ride = some r ∧
        s' = ⟨some { r with seats_available := r.seats_available + 1,
                            version := r.version + 1 },
              s.bookings.erase p⟩)
    ∧ (res ≠ .Cancelled → s' = s)) := by
  constructor
  · intro res s' h
    cases hrs : rs.ride with
    | none => simp [bookAttempt, hrs] at h
    | some r =>
      by_cases h1 : r.rider_gender_preference ≠ "Any" ∧ g ≠ r.rider_gender_preference
      · simp [bookAttempt, hrs, h1] at h
      · cases h2 : isCompleted r now with
        | true => simp [bookAttempt, hrs, h1, h2] at h
        | false =>
          by_cases h3 : p ∈ rs.bookings
          · simp [bookAttempt, hrs, h1, h2, h3] at h
          · by_cases h4 : r.seats_available ≤ 0
            · simp [bookAttempt, hrs, h1, h2, h3, h4] at h
            · cases hws : ws.ride with
              | none => simp [bookAttempt, hrs, h1, h2, h3, h4, hws] at h
              | some w =>
                by_cases h5 : w.version = r.version ∧ 0 < w.seats_available
                · by_cases h6 : p ∈ ws.bookings
                  · simp [bookAttempt, hrs, h1, h2, h3, h4, hws, h5, h6] at h
                  · simp [bookAttempt, hrs, h1, h2, h3, h4, hws, h5, h6] at h
                    obtain ⟨rfl, rfl⟩ := h
                    exact ⟨rfl, r, w, rfl, rfl, by rw [h5.1]⟩
                · simp [bookAttempt, hrs, h1, h2, h3, h4, hws, h5] at h
  · intro res s' h
    cases hr2 : s.ride with
    | none =>
      simp [cancel_booking, hr2] at h
      obtain ⟨rfl, rfl⟩ := h
      exact ⟨fun hco => CancelResult.noConfusion hco, fun _ => rfl⟩
    | some r =>
      cases hc : isCompleted r now with
      | true =>
        simp [cancel_booking, hr2, hc] at h
        obtain ⟨rfl, rfl⟩ := h
        exact ⟨fun hco => CancelResult.noConfusion hco, fun _ => rfl⟩
      | false =>
        by_cases hb : p ∈ s.bookings
        · simp [cancel_booking, hr2, hc, hb] at h
          obtain ⟨rfl, rfl⟩ := h
          exact ⟨fun _ => ⟨r, rfl, rfl⟩, fun hne => absurd rfl hne⟩
        · simp [cancel_booking, hr2, hc, hb] at h
          obtain ⟨rfl, rfl⟩ := h
          exact ⟨fun hco => CancelResult.noConfusion hco, fun _ => rfl⟩

/-- Witness for C2: a rejected cancellation (completed ride) leaves the
state untouched. -/
theorem version_increment_per_mutation_witness :
    (cancel_booking 20000 7 sampleBookedSt).2 = sampleBookedSt :=
  ((version_increment_per_mutation 20000 7 1 "Any" sampleSt sampleSt sampleBookedSt).2
      (cancel_booking 20000 7 sampleBookedSt).1 (cancel_booking 20000 7 sampleBookedSt).2
      rfl).2 (by decide)

/-- The booking loop never uses more attempts than it has fuel. -/
theorem bookLoop_attempts_le (env : Nat → St × St) (now p : Nat) (g : String) :
    ∀ fuel attempt, (bookLoop env now p g fuel attempt).attempts ≤ attempt + fuel := by
  intro fuel
  induction fuel with
  | zero => intro attempt; simp [bookLoop]
  | succ n ih =>
    intro attempt
    cases hb : bookAttempt now p g (attempt + 1) (env (attempt + 1)).1 (env (attempt + 1)).2 with
    | done r c =>
      simp [bookLoop, hb]
    | retry ms =>
      have := ih (attempt + 1)
      simp [bookLoop, hb]
      omega

/-- C5: on each attempt the preconditions are checked against the fresh read
in order — missing ride, gender filter, completed ride, existing booking,
no seats — and a reserve call on a ride whose fresh read shows no seats left
returns `RideFull` on the first attempt, never reaching the retry budget. -/
theorem preconditions_order_ride_full (env : Nat → St × St) (now p a : Nat)
    (g : String) (rs ws : St) :
    (rs.ride = none → bookAttempt now p g a rs ws = .done .NotFound none)
  ∧ (∀ r, rs.ride = some r →
      (r.rider_gender_preference ≠ "Any" ∧ g ≠ r.rider_gender_preference →
        bookAttempt now p g a rs ws = .done .PolicyRejected none)
    ∧ ((r.rider_gender_preference = "Any" ∨ g = r.rider_gender_preference) →
        (isCompleted r now = true →
          bookAttempt now p g a rs ws = .done .RideCompleted none)
      ∧ (isCompleted r now = false →
          (p ∈ rs.bookings →
            bookAttempt now p g a rs ws = .done .AlreadyBooked none)
        ∧ (p ∉ rs.bookings → r.seats_available ≤ 0 →
            bookAttempt now p g a rs ws = .done .RideFull none))))
  ∧ (∀ r, (env 1).1.ride = some r →
      (r.rider_gender_preference = "Any" ∨ g = r.rider_gender_preference) →
      isCompleted r now = false → p ∉ (env 1).1.bookings →
      r.seats_available ≤ 0 →
      book_ride env now p g = ⟨.RideFull, none, [], 1⟩) := by
  refine ⟨?_, ?_, ?_⟩
  · intro hnone
    simp [bookAttempt, hnone]
  · intro r hr
    constructor
    · intro hgbad
      simp [bookAttempt, hr, hgbad]
    · intro hg
      have hng : ¬(r.rider_gender_preference ≠ "Any" ∧ g ≠ r.rider_gender_preference) := by
        tauto
      constructor
      · intro hc
        simp [bookAttempt, hr, hng, hc]
      · intro hc
        constructor
        · intro hb
          simp [bookAttempt, hr, hng, hc, hb]
        · intro hb hfull
          simp [bookAttempt, hr, hng, hc, hb, hfull]
  · intro r hr hg hc hb hfull
    have hng : ¬(r.rider_gender_preference ≠ "Any" ∧ g ≠ r.rider_gender_preference) := by
      tauto
    have hA : bookAttempt now p g 1 (env 1).1 (env 1).2 = .done .RideFull none := by
      simp [bookAttempt, hr, hng, hc, hb, hfull]
    simp [book_ride, max_retries, bookLoop, hA]

/-- Witness for C5: the sample ride with zero seats is rejected as full on
the first attempt. -/
theorem preconditions_order_ride_full_witness :
    book_ride (fun _ => (sampleFullSt, sampleFullSt)) 0 7 "Male" =
      ⟨.RideFull, none, [], 1⟩ :=
  (preconditions_order_ride_full (fun _ => (sampleFullSt, sampleFullSt)) 0 7 1 "Male"
      sampleFullSt sampleFullSt).2.2 { sampleRide with seats_available := 0 } rfl
      (Or.inl rfl) (by decide) (by decide) (by decide)

/-- C9: when the guard matches but the booking insert hits the uniqueness
constraint (a racing duplicate for the same pair appeared at write time), the
transaction is rolled back — nothing is committed by this caller — and the
call reports `AlreadyBooked`, whose flash category is not an error. -/
theorem duplicate_insert_race_already_booked (env : Nat → St × St)
    (now p : Nat) (g : String) (r w : Ride)
    (hr : (env 1).1.ride = some r)
    (hg : r.rider_gender_preference = "Any" ∨ g = r.rider_gender_preference)
    (hact : isCompleted r now = false)
    (hnb : p ∉ (env 1).1.bookings)
    (hseats : 0 < r.seats_available)
    (hw : (env 1).2.ride = some w)
    (hv : w.version = r.version)
    (hws : 0 < w.seats_available)
    (hdup : p ∈ (env 1).2.bookings) :
    book_ride env now p g = ⟨.AlreadyBooked, none, [], 1⟩
  ∧ isError .AlreadyBooked = false := by
  have hng : ¬(r.rider_gender_preference ≠ "Any" ∧ g ≠ r.rider_gender_preference) := by
    tauto
  have hs4 : ¬(r.seats_available ≤ 0) := by omega
  have hA : bookAttempt now p g 1 (env 1).1 (env 1).2 = .done .AlreadyBooked none := by
    simp [bookAttempt, hr, hng, hact, hnb, hs4, hw, hv, hws, hdup]
  refine ⟨?_, by decide⟩
  simp [book_ride, max_retries, bookLoop, hA]

/-- Witness for C9: passenger 7 races a duplicate of their own booking. -/
theorem duplicate_insert_race_witness :
    book_ride duplicateRaceEnv 0 7 "Male" = ⟨.AlreadyBooked, none, [], 1⟩ :=
  (duplicate_insert_race_already_booked duplicateRaceEnv 0 7 "Male" sampleRide sampleRide
      rfl (Or.inl rfl) (by decide) (by decide) (by decide) rfl rfl (by decide)
      (by decide)).1

/-- C6: the retry loop runs at most `max_retries = 4` attempts; every retry
sleeps exactly `80 * attempt` milliseconds (linear backoff with 80 ms base);
and when every attempt misses the conditional-write guard — no write is
applied — the loop exhausts its budget and returns the transient
`HighContention` outcome after sleeping 80, 160, 240 and 320 ms. -/
theorem retry_bound_backoff_high_contention (env : Nat → St × St)
    (now p : Nat) (g : String) :
    (book_ride env now p g).attempts ≤ max_retries
  ∧ (∀ a rs ws ms, bookAttempt now p g a rs ws = .retry ms → ms = 80 * a)
  ∧ ((∀ a, 1 ≤ a → a ≤ max_retries →
        bookAttempt now p g a (env a).1 (env a).2 = .retry (80 * a)) →
      book_ride env now p g = ⟨.HighContention, none, [80, 160, 240, 320], 4⟩) := by
  refine ⟨?_, ?_, ?_⟩
  · have := bookLoop_attempts_le env now p g max_retries 0
    simpa [book_ride] using this
  · intro a rs ws ms h
    cases hrs : rs.ride with
    | none => simp [bookAttempt, hrs] at h
    | some r =>
      by_cases h1 : r.rider_gender_preference ≠ "Any" ∧ g ≠ r.rider_gender_preference
      · simp [bookAttempt, hrs, h1] at h
      · cases h2 : isCompleted r now with
        | true => simp [bookAttempt, hrs, h1, h2] at h
        | false =>
          by_cases h3 : p ∈ rs.bookings
          · simp [bookAttempt, hrs, h1, h2, h3] at h
          · by_cases h4 : r.seats_available ≤ 0
            · simp [bookAttempt, hrs, h1, h2, h3, h4] at h
            · cases hws : ws.ride with
              | none =>
                simp [bookAttempt, hrs, h1, h2, h3, h4, hws] at h
                omega
              | some w =>
                by_cases h5 : w.version = r.version ∧ 0 < w.seats_available
                · by_cases h6 : p ∈ ws.bookings
                  · simp [bookAttempt, hrs, h1, h2, h3, h4, hws, h5, h6] at h
                  · simp [bookAttempt, hrs, h1, h2, h3, h4, hws, h5, h6] at h
                · simp [bookAttempt, hrs, h1, h2, h3, h4, hws, h5] at h
                  omega
  · intro hall
    have h1 := hall 1 (by decide) (by decide)
    have h2 := hall 2 (by decide) (by decide)
    have h3 := hall 3 (by decide) (by decide)
    have h4 := hall 4 (by decide) (by decide)
    simp [book_ride, max_retries, bookLoop, h1, h2, h3, h4]

/-- Witness for C6: under permanent version contention the loop gives up
after 4 attempts with linear backoff. -/
theorem retry_bound_backoff_witness :
    book_ride contendedEnv 0 7 "Male" = ⟨.HighContention, none, [80, 160, 240, 320], 4⟩ :=
  (retry_bound_backoff_high_contention contendedEnv 0 7 "Male").2.2
    (fun _ _ _ => rfl)

/-- C4: a first reserve by an eligible passenger on an active ride with a
seat left succeeds and creates exactly one booking record for the pair; a
second reserve by the same passenger (while the ride is still active) is the
idempotent no-op success `AlreadyBooked` — its flash category is not an
error — and returns the state unchanged, so `seats_available` and `version`
are untouched. -/
theorem reserve_idempotent (now now2 p : Nat) (g : String) (s : St) (r : Ride)
    (hr : s.ride = some r)
    (hg : r.rider_gender_preference = "Any" ∨ g = r.rider_gender_preference)
    (hact : isCompleted r now = false)
    (hnb : p ∉ s.bookings)
    (hseats : 0 < r.seats_available)
    (hact2 : isCompleted r now2 = false) :
    (bookOnce now p g s).1 = .Booked
  ∧ (bookOnce now p g s).2.bookings.count p = 1
  ∧ bookOnce now2 p g (bookOnce now p g s).2 = (.AlreadyBooked, (bookOnce now p g s).2)
  ∧ isError .AlreadyBooked = false := by
  have hng : ¬(r.rider_gender_preference ≠ "Any" ∧ g ≠ r.rider_gender_preference) := by
    tauto
  have hs4 : ¬(r.seats_available ≤ 0) := by omega
  have hA : bookAttempt now p g 1 s s =
      .done .Booked (some ⟨some { r with seats_available := r.seats_available - 1,
                                         version := r.version + 1 },
                          p :: s.bookings⟩) := by
    simp [bookAttempt, hr, hng, hact, hnb, hs4, hseats]
  have hbook : bookOnce now p g s =
      (.Booked, ⟨some { r with seats_available := r.seats_available - 1,
                               version := r.version + 1 },
                 p :: s.bookings⟩) := by
    simp [bookOnce, book_ride, max_retries, bookLoop, hA]
  have hIC : ∀ (x : Int) (y : Nat) (n : Nat),
      isCompleted { r with seats_available := x, version := y } n = isCompleted r n :=
    fun _ _ _ => rfl
  have hA2 : bookAttempt now2 p g 1
      (⟨some { r with seats_available := r.seats_available - 1,
                      version := r.version + 1 }, p :: s.bookings⟩ : St)
      (⟨some { r with seats_available := r.seats_available - 1,
                      version := r.version + 1 }, p :: s.bookings⟩ : St) =
      .done .AlreadyBooked none := by
    simp [bookAttempt, hng, hIC, hact2]
  rw [hbook]
  refine ⟨rfl, ?_, ?_, by decide⟩
  · simp [List.count_cons_self]
    exact List.count_eq_zero.mpr hnb
  · simp [bookOnce, book_ride, max_retries, bookLoop, hA2]

/-- Witness for C4: booking the sample ride twice as passenger 7. -/
theorem reserve_idempotent_witness :
    bookOnce 0 7 "Male" (bookOnce 0 7 "Male" sampleSt).2 =
      (.AlreadyBooked, (bookOnce 0 7 "Male" sampleSt).2) :=
  (reserve_idempotent 0 0 7 "Male" sampleSt sampleRide rfl (Or.inl rfl) (by decide)
      (by decide) (by decide) (by decide)).2.2.1

/-- C7: a successful reserve followed by a successful release returns
`seats_available` to its pre-reserve value and restores the booking records,
while the version has advanced by exactly 2 and so does not return to its
original value. -/
theorem reserve_release_round_trip (now now2 p : Nat) (g : String) (s : St) (r : Ride)
    (hr : s.ride = some r)
    (hg : r.rider_gender_preference = "Any" ∨ g = r.rider_gender_preference)
    (hact : isCompleted r now = false)
    (hnb : p ∉ s.bookings)
    (hseats : 0 < r.seats_available)
    (hact2 : isCompleted r now2 = false) :
    (bookOnce now p g s).1 = .Booked
  ∧ (cancel_booking now2 p (bookOnce now p g s).2).1 = .Cancelled
  ∧ (∃ r2, (cancel_booking now2 p (bookOnce now p g s).2).2.ride = some r2
      ∧ r2.seats_available = r.seats_available
      ∧ r2.version = r.version + 2
      ∧ r2.version ≠ r.version)
  ∧ (cancel_booking now2 p (bookOnce now p g s).2).2.bookings = s.bookings := by
  have hng : ¬(r.rider_gender_preference ≠ "Any" ∧ g ≠ r.rider_gender_preference) := by
    tauto
  have hs4 : ¬(r.seats_available ≤ 0) := by omega
  have hA : bookAttempt now p g 1 s s =
      .done .Booked (some ⟨some { r with seats_available := r.seats_available - 1,
                                         version := r.version + 1 },
                          p :: s.bookings⟩) := by
    simp [bookAttempt, hr, hng, hact, hnb, hs4, hseats]
  have hbook : bookOnce now p g s =
      (.Booked, ⟨some { r with seats_available := r.seats_available - 1,
                               version := r.version + 1 },
                 p :: s.bookings⟩) := by
    simp [bookOnce, book_ride, max_retries, bookLoop, hA]
  have hIC : ∀ (x : Int) (y : Nat) (n : Nat),
      isCompleted { r with seats_available := x, version := y } n = isCompleted r n :=
    fun _ _ _ => rfl
  have hcancel : cancel_booking now2 p
      (⟨some { r with seats_available := r.seats_available - 1,
                      version := r.version + 1 }, p :: s.bookings⟩ : St) =
      (.Cancelled, ⟨some { r with seats_available := r.seats_available - 1 + 1,
                                  version := r.version + 1 + 1 }, s.bookings⟩) := by
    simp [cancel_booking, hIC, hact2]
  have hfinal : cancel_booking now2 p (bookOnce now p g s).2 =
      (.Cancelled, ⟨some { r with seats_available := r.seats_available - 1 + 1,
                                  version := r.version + 1 + 1 }, s.bookings⟩) := by
    rw [hbook]
    exact hcancel
  refine ⟨by rw [hbook], by rw [hfinal],
    ⟨{ r with seats_available := r.seats_available - 1 + 1,
              version := r.version + 1 + 1 }, by rw [hfinal], ?_, ?_, ?_⟩,
    by rw [hfinal]⟩
  · show r.seats_available - 1 + 1 = r.seats_available
    omega
  · show r.version + 1 + 1 = r.version + 2
    omega
  · show r.version + 1 + 1 ≠ r.version
    omega

/-- Witness for C7: reserve then release on the sample ride restores the
seat count while the version advances to 3. -/
theorem reserve_release_round_trip_witness :
    (cancel_booking 0 7 (bookOnce 0 7 "Male" sampleSt).2).2.bookings =
      sampleSt.bookings :=
  (reserve_release_round_trip 0 0 7 "Male" sampleSt sampleRide rfl (Or.inl rfl)
      (by decide) (by decide) (by decide) (by decide)).2.2.2

/-- The snapshot an attempt reads is either a historical state or the
current one. -/
theorem stateAt_mem (hist : List RState) (cur : RState) (idx : Nat) :
    stateAt hist cur idx ∈ hist ∨ stateAt hist cur idx = cur := by
  unfold stateAt List.getD
  rcases h : hist[idx]? with _ | a
  · right; simp [h]
  · left
    have := List.getElem?_mem h
    simp [h, this]

/-- Coherence of a run: versions in the history never exceed the current
version, and a historical state with the current version has the current
seat count — versions only move forward, once per committed write, so an
unchanged version means an unchanged seat count. -/
def HistInv (hist : List RState) (cur : RState) : Prop :=
  ∀ a ∈ hist, a.version ≤ cur.version ∧ (a.version = cur.version → a.seats = cur.seats)

/-- One step preserves coherence; a committed step decrements the current
seat count by exactly one and requires a seat to be left; an uncommitted
step leaves the state unchanged. -/
theorem histInv_step (hist : List RState) (cur : RState) (e : REv)
    (h : HistInv hist cur) :
    HistInv (hist ++ [cur]) (rstep hist cur e).1
  ∧ ((rstep hist cur e).2 = true →
      (rstep hist cur e).1.seats = cur.seats - 1 ∧ 0 < cur.seats)
  ∧ ((rstep hist cur e).2 = false → (rstep hist cur e).1 = cur) := by
  cases e with
  | reserve idx ok =>
    by_cases hg : cur.version = (stateAt hist cur idx).version ∧ 0 < cur.seats ∧ ok = true
    · have hsv : (stateAt hist cur idx).version = cur.version := hg.1.symm
      have hss : (stateAt hist cur idx).seats = cur.seats := by
        rcases stateAt_mem hist cur idx with hm | hm
        · exact (h _ hm).2 hsv
        · rw [hm]
      have hres : rstep hist cur (.reserve idx ok) =
          (⟨(stateAt hist cur idx).seats - 1, (stateAt hist cur idx).version + 1⟩, true) := by
        simp [rstep, hg]
      rw [hres]
      refine ⟨?_, ?_, ?_⟩
      · intro a ha
        rcases List.mem_append.mp ha with ha | ha
        · have := h _ ha
          constructor
          · simp only [hsv]
            omega
          · intro hv
            exfalso
            simp only [hsv] at hv
            omega
        · have haeq : a = cur := by simpa using ha
          subst haeq
          constructor
          · simp only [hsv]; omega
          · intro hv; exfalso; simp only [hsv] at hv; omega
      · intro _
        exact ⟨by simp [hss], hg.2.1⟩
      · intro hfalse
        exact absurd hfalse (by simp)
    · have hres : rstep hist cur (.reserve idx ok) = (cur, false) := by
        simp only [rstep]
        rw [if_neg hg]
      rw [hres]
      refine ⟨?_, ?_, ?_⟩
      · intro a ha
        rcases List.mem_append.mp ha with ha | ha
        · exact h _ ha
        · have haeq : a = cur := by simpa using ha
          subst haeq
          exact ⟨le_refl _, fun _ => rfl⟩
      · intro htrue
        exact absurd htrue (by simp)
      · intro _
        rfl

/-- Along any coherent run, the final seat count stays non-negative and the
initial seat count equals the final one plus the number of committed
reservations. -/
theorem runR_spec (es : List REv) :
    ∀ hist cur, HistInv hist cur → 0 ≤ cur.seats →
      0 ≤ (runR es hist cur).1.seats
    ∧ cur.seats = (runR es hist cur).1.seats + (runR es hist cur).2 := by
  induction es with
  | nil =>
    intro hist cur _ h0
    simp [runR, h0]
  | cons e es ih =>
    intro hist cur h h0
    have hstep := histInv_step hist cur e h
    cases hb : (rstep hist cur e).2 with
    | false =>
      have hcur : (rstep hist cur e).1 = cur := hstep.2.2 hb
      have h1 := hstep.1
      rw [hcur] at h1
      have ihh := ih (hist ++ [cur]) cur h1 h0
      simp only [runR, hb]
      rw [hcur]
      simpa using ihh
    | true =>
      have hseats := hstep.2.1 hb
      have h0' : 0 ≤ (rstep hist cur e).1.seats := by omega
      have ihh := ih (hist ++ [cur]) (rstep hist cur e).1 hstep.1 h0'
      simp only [runR, hb]
      refine ⟨ihh.1, ?_⟩
      have h2 := ihh.2
      simp only [if_pos]
      push_cast
      omega

/-- C1: over any sequence of concurrent reserve attempts on a ride starting
with a non-negative seat count, the number of committed (non-`AlreadyBooked`)
reservations never exceeds the initial seat count, the seat count never goes
negative in any reachable state, and the decrement commits only under the
conditional-write guard `version == observedVersion AND seats_available > 0`. -/
theorem concurrent_reserves_never_overbook (es : List REv) (s0 : RState)
    (h0 : 0 ≤ s0.seats) :
    ((runR es [] s0).2 : Int) ≤ s0.seats
  ∧ 0 ≤ (runR es [] s0).1.seats
  ∧ (∀ hist cur idx ok, (rstep hist cur (.reserve idx ok)).2 = true →
      cur.version = (stateAt hist cur idx).version ∧ 0 < cur.seats) := by
  have hinv : HistInv [] s0 := by
    intro a ha
    simp at ha
  have hmain := runR_spec es [] s0 hinv h0
  refine ⟨?_, hmain.1, ?_⟩
  · have h2 := hmain.2
    omega
  · intro hist cur idx ok hap
    by_cases hg : cur.version = (stateAt hist cur idx).version ∧ 0 < cur.seats ∧ ok = true
    · exact ⟨hg.1, hg.2.1⟩
    · exfalso
      have : rstep hist cur (.reserve idx ok) = (cur, false) := by
        simp only [rstep]
        rw [if_neg hg]
      rw [this] at hap
      exact Bool.false_ne_true hap

/-- Witness for C1: two attempts on a 2-seat ride, the second with a stale
snapshot, commit one reservation and leave one seat. -/
theorem concurrent_reserves_never_overbook_witness :
    ((runR sampleTrace [] ⟨2, 1⟩).2 : Int) ≤ (⟨2, 1⟩ : RState).seats
  ∧ 0 ≤ (runR sampleTrace [] ⟨2, 1⟩).1.seats :=
  ⟨(concurrent_reserves_never_overbook sampleTrace ⟨2, 1⟩ (by decide)).1,
   (concurrent_reserves_never_overbook sampleTrace ⟨2, 1⟩ (by decide)).2.1⟩
